import Mathlib

/-!
Shallow embedding of the Raspberry Pi hardware abstraction layer adapter
from examples/NonArduino/Raspberry/PiHal.h.

The adapter is a thin wrapper over the pigpio GPIO/SPI library.  We model:
  - the adapter's state (the three interrupt arrays and the SPI scalars)
    as a Lean structure,
  - each member function as a pure state transformer that additionally
    returns the list of pigpio library calls it performs and the list of
    raw indices it uses on the three interrupt arrays,
  - the free function pigpioAlertHandler as a pure function from its
    arguments (the PiHal instance arriving through the userdata pointer is
    modelled as an Option PiHal, None standing for a null pointer).

C integer types: uint32_t values are modelled as Nat; the alert handler's
event parameter is a C int and is modelled as Int, since nothing in the
code constrains it to be nonnegative.  The three C arrays have
PI_MAX_USER_GPIO + 1 cells; the C code can index them with any int, so we
model each array as a total function on Int (indices outside 0..31 stand
for the adjacent out-of-bounds memory) and record every raw index used.
Callback function pointers are modelled as Option Nat: an abstract
identifier, with none standing for a NULL pointer.
-/

/-- pigpio library constant: highest user GPIO number (value from pigpio.h). -/
def PI_MAX_USER_GPIO : Nat := 31

/-- pigpio library constant: input pin mode. -/
def PI_INPUT : Nat := 0

/-- pigpio library constant: output pin mode. -/
def PI_OUTPUT : Nat := 1

/-- pigpio library constant: low level. -/
def PI_LOW : Nat := 0

/-- pigpio library constant: high level. -/
def PI_HIGH : Nat := 1

/-- pigpio library constant: rising edge alert (value from pigpio.h). -/
def RISING_EDGE : Nat := 0

/-- pigpio library constant: falling edge alert (value from pigpio.h). -/
def FALLING_EDGE : Nat := 1

/-- PiHal.h macro: PI_RISING is defined as FALLING_EDGE (the file swaps the
two on purpose, see its comment about inverted change directions). -/
def PI_RISING : Nat := FALLING_EDGE

/-- PiHal.h macro: PI_FALLING is defined as RISING_EDGE. -/
def PI_FALLING : Nat := RISING_EDGE

/-- Modelled from the spec: the sentinel non-connected pin value RADIOLIB_NC
of the surrounding RadioLib framework (its header is not part of the sources
here).  The framework encodes it as the all-ones 32-bit pin value, so it is
never a valid GPIO number. -/
def RADIOLIB_NC : Nat := 4294967295

/-- Modulus of 32-bit unsigned arithmetic. -/
def UINT32_MOD : Nat := 4294967296

/-- 32-bit unsigned subtraction, as performed on uint32_t values by C. -/
def sub32 (a b : Nat) : Nat := (((a : Int) - (b : Int)) % (UINT32_MOD : Int)).toNat

/-- One call into the pigpio library, recorded with the arguments the
adapter passes.  gpioSetAlertFuncEx records whether a non-NULL handler was
installed.  spiXfer records the handle and the transfer length. -/
inductive LibCall where
  | gpioInitialise : LibCall
  | gpioTerminate : LibCall
  | gpioSetMode (pin mode : Nat) : LibCall
  | gpioWrite (pin value : Nat) : LibCall
  | gpioRead (pin : Nat) : LibCall
  | gpioSetAlertFuncEx (pin : Nat) (handlerInstalled : Bool) : LibCall
  | gpioDelay (us : Nat) : LibCall
  | gpioTick : LibCall
  | spiOpen (channel speed flags : Nat) : LibCall
  | spiClose (handle : Int) : LibCall
  | spiXfer (handle : Int) (len : Nat) : LibCall
deriving DecidableEq

/-- Observable side effects of one adapter operation: the pigpio calls it
made, in order, and the raw indices of every read or write it performed on
the three interrupt arrays, in order. -/
structure Effects where
  calls : List LibCall
  idx : List Int
deriving DecidableEq

/-- The empty effect: no library call, no array access. -/
def Effects.empty : Effects := ⟨[], []⟩

/-- State of a PiHal object: the three parallel interrupt arrays (modelled
as total functions on Int, see the header comment), the two constant SPI
scalars set by the constructor, and the SPI session handle. -/
structure PiHal where
  interruptEnabled : Int → Bool
  interruptModes : Int → Nat
  interruptCallbacks : Int → Option Nat
  _spiChannel : Nat
  _spiSpeed : Nat
  _spiHandle : Int

/-- The C++ constructor: stores the SPI channel and speed (speed defaults
to 2000000) and leaves _spiHandle at its initializer -1.  The three member
arrays are not initialized by the constructor, so their contents are
parameters here. -/
def PiHal.construct (spiChannel : Nat) (spiSpeed : Nat)
    (en : Int → Bool) (md : Int → Nat) (cb : Int → Option Nat) : PiHal :=
  { interruptEnabled := en
    interruptModes := md
    interruptCallbacks := cb
    _spiChannel := spiChannel
    _spiSpeed := spiSpeed
    _spiHandle := -1 }

/-- PiHal::pinMode: sentinel check, then gpioSetMode. -/
def PiHal.pinMode (h : PiHal) (pin mode : Nat) : PiHal × Effects :=
  if pin = RADIOLIB_NC then
    (h, Effects.empty)
  else
    (h, ⟨[LibCall.gpioSetMode pin mode], []⟩)

/-- PiHal::digitalWrite: sentinel check, then gpioWrite. -/
def PiHal.digitalWrite (h : PiHal) (pin value : Nat) : PiHal × Effects :=
  if pin = RADIOLIB_NC then
    (h, Effects.empty)
  else
    (h, ⟨[LibCall.gpioWrite pin value], []⟩)

/-- PiHal::digitalRead: sentinel check returning 0, else the value gpioRead
reports; gpioLevel gives the level the library reads on each pin. -/
def PiHal.digitalRead (h : PiHal) (gpioLevel : Nat → Nat) (pin : Nat) :
    Nat × PiHal × Effects :=
  if pin = RADIOLIB_NC then
    (0, h, Effects.empty)
  else
    (gpioLevel pin, h, ⟨[LibCall.gpioRead pin], []⟩)

/-- PiHal::attachInterrupt: guard against the sentinel and out-of-range
pins, then write all three arrays at the pin and install the alert
handler.  The callback argument is a function pointer, possibly NULL. -/
def PiHal.attachInterrupt (h : PiHal) (interruptNum : Nat)
    (interruptCb : Option Nat) (mode : Nat) : PiHal × Effects :=
  if interruptNum = RADIOLIB_NC ∨ interruptNum > PI_MAX_USER_GPIO then
    (h, Effects.empty)
  else
    ({ h with
        interruptEnabled := Function.update h.interruptEnabled (interruptNum : Int) true
        interruptModes := Function.update h.interruptModes (interruptNum : Int) mode
        interruptCallbacks := Function.update h.interruptCallbacks (interruptNum : Int) interruptCb },
     ⟨[LibCall.gpioSetAlertFuncEx interruptNum true],
      [(interruptNum : Int), (interruptNum : Int), (interruptNum : Int)]⟩)

/-- PiHal::detachInterrupt: guard as in attachInterrupt, then clear all
three arrays at the pin and remove the alert handler. -/
def PiHal.detachInterrupt (h : PiHal) (interruptNum : Nat) : PiHal × Effects :=
  if interruptNum = RADIOLIB_NC ∨ interruptNum > PI_MAX_USER_GPIO then
    (h, Effects.empty)
  else
    ({ h with
        interruptEnabled := Function.update h.interruptEnabled (interruptNum : Int) false
        interruptModes := Function.update h.interruptModes (interruptNum : Int) 0
        interruptCallbacks := Function.update h.interruptCallbacks (interruptNum : Int) none },
     ⟨[LibCall.gpioSetAlertFuncEx interruptNum false],
      [(interruptNum : Int), (interruptNum : Int), (interruptNum : Int)]⟩)

/-- PiHal::delay: gpioDelay(ms * 1000), the product taken in uint32_t. -/
def PiHal.delay (h : PiHal) (ms : Nat) : PiHal × Effects :=
  (h, ⟨[LibCall.gpioDelay (ms * 1000 % UINT32_MOD)], []⟩)

/-- PiHal::delayMicroseconds: gpioDelay(us). -/
def PiHal.delayMicroseconds (h : PiHal) (us : Nat) : PiHal × Effects :=
  (h, ⟨[LibCall.gpioDelay us], []⟩)

/-- PiHal::millis: gpioTick() / 1000; tick is the value gpioTick returns. -/
def PiHal.millis (h : PiHal) (tick : Nat) : Nat × PiHal × Effects :=
  (tick / 1000, h, ⟨[LibCall.gpioTick], []⟩)

/-- PiHal::micros: gpioTick(); tick is the value gpioTick returns. -/
def PiHal.micros (h : PiHal) (tick : Nat) : Nat × PiHal × Effects :=
  (tick, h, ⟨[LibCall.gpioTick], []⟩)

/-- PiHal::spiBegin: open an SPI session only when none is recorded;
spiOpenResult is the handle (or negative error code) spiOpen returns. -/
def PiHal.spiBegin (h : PiHal) (spiOpenResult : Int) : PiHal × Effects :=
  if h._spiHandle < 0 then
    ({ h with _spiHandle := spiOpenResult },
     ⟨[LibCall.spiOpen h._spiChannel h._spiSpeed 0], []⟩)
  else
    (h, Effects.empty)

/-- PiHal::spiBeginTransaction: empty body. -/
def PiHal.spiBeginTransaction (h : PiHal) : PiHal × Effects :=
  (h, Effects.empty)

/-- PiHal::spiTransfer: one spiXfer call on the current handle. -/
def PiHal.spiTransfer (h : PiHal) (len : Nat) : PiHal × Effects :=
  (h, ⟨[LibCall.spiXfer h._spiHandle len], []⟩)

/-- PiHal::spiEndTransaction: empty body. -/
def PiHal.spiEndTransaction (h : PiHal) : PiHal × Effects :=
  (h, Effects.empty)

/-- PiHal::spiEnd: close the session only when one is recorded and reset
the handle to -1. -/
def PiHal.spiEnd (h : PiHal) : PiHal × Effects :=
  if h._spiHandle ≥ 0 then
    ({ h with _spiHandle := -1 }, ⟨[LibCall.spiClose h._spiHandle], []⟩)
  else
    (h, Effects.empty)

/-- PiHal::init: gpioInitialise, spiBegin, then drive pin 18 high. -/
def PiHal.init (h : PiHal) (spiOpenResult : Int) : PiHal × Effects :=
  let s := h.spiBegin spiOpenResult
  (s.1,
   ⟨LibCall.gpioInitialise :: s.2.calls ++
      [LibCall.gpioSetMode 18 PI_OUTPUT, LibCall.gpioWrite 18 PI_HIGH],
    s.2.idx⟩)

/-- PiHal::term: spiEnd, drive pin 18 low, then gpioTerminate. -/
def PiHal.term (h : PiHal) : PiHal × Effects :=
  let s := h.spiEnd
  (s.1,
   ⟨s.2.calls ++
      [LibCall.gpioSetMode 18 PI_OUTPUT, LibCall.gpioWrite 18 PI_LOW,
       LibCall.gpioTerminate],
    s.2.idx⟩)

/-- Result of one run of the alert handler: the callback pointer it
invoked, if any, and the raw indices of its interrupt-array accesses. -/
structure AlertResult where
  invoked : Option Nat
  idx : List Int
deriving DecidableEq

/-- pigpioAlertHandler: the free function pigpio calls on a level change.
event is a C int; userdata carries the PiHal pointer (none for NULL).
The short-circuit evaluation of the C condition determines exactly which
array cells are read; a fourth read of interruptCallbacks happens when the
callback is actually called. -/
def pigpioAlertHandler (event : Int) (level : Nat) (tick : Nat)
    (userdata : Option PiHal) : AlertResult :=
  match userdata with
  | none => ⟨none, []⟩
  | some hal =>
    if event > ( PI_MAX_USER_GPIO : Int) then
      ⟨none, []⟩
    else if hal.interruptEnabled event then
      if hal.interruptModes event = level then
        match hal.interruptCallbacks event with
        | some cb => ⟨some cb, [event, event, event, event]⟩
        | none => ⟨none, [event, event, event]⟩
      else ⟨none, [event, event]⟩
    else ⟨none, [event]⟩

/-- The while loop of PiHal::pulseIn after the sentinel guard (so pin is
known to differ from RADIOLIB_NC and the inner sentinel re-checks of
digitalRead and micros are vacuous).  clock k is the value of the k-th
gpioTick() call of this pulseIn invocation (calls 0 and 1 initialise start
and curtick); reads i is the level the i-th gpioRead reports.  Iteration i
performs one gpioRead and then one gpioTick, either for the exit
measurement or for the timeout check.  fuel bounds the number of
iterations; none means the loop was still running when fuel ran out. -/
def pulseInLoop (clock reads : Nat → Nat) (pin state timeout curtick start : Nat) :
    Nat → Nat → Option Nat × List LibCall
  | 0, _ => (none, [])
  | fuel + 1, i =>
    if reads i = state then
      if sub32 (clock (i + 2)) curtick > timeout then
        (some 0, [LibCall.gpioRead pin, LibCall.gpioTick])
      else
        let rest := pulseInLoop clock reads pin state timeout curtick start fuel (i + 1)
        (rest.1, LibCall.gpioRead pin :: LibCall.gpioTick :: rest.2)
    else
      (some (sub32 (clock (i + 2)) start), [LibCall.gpioRead pin, LibCall.gpioTick])

/-- PiHal::pulseIn: sentinel check returning 0, else set the pin to input,
record start and curtick from two micros() calls, and poll the pin until
it leaves the given state or the timeout elapses.  All subtractions are
uint32_t subtractions.  The member state is untouched. -/
def PiHal.pulseIn (h : PiHal) (clock reads : Nat → Nat)
    (pin state timeout fuel : Nat) : Option Nat × PiHal × List LibCall :=
  if pin = RADIOLIB_NC then
    (some 0, h, [])
  else
    let start := clock 0
    let curtick := clock 1
    let loop := pulseInLoop clock reads pin state timeout curtick start fuel 0
    (loop.1, h,
     LibCall.gpioSetMode pin PI_INPUT :: LibCall.gpioTick :: LibCall.gpioTick :: loop.2)

/-- One adapter operation together with the environment inputs (library
return values) its run consumes. -/
inductive Op where
  | init (spiOpenResult : Int) : Op
  | term : Op
  | pinMode (pin mode : Nat) : Op
  | digitalWrite (pin value : Nat) : Op
  | digitalRead (gpioLevel : Nat → Nat) (pin : Nat) : Op
  | attachInterrupt (pin : Nat) (cb : Option Nat) (mode : Nat) : Op
  | detachInterrupt (pin : Nat) : Op
  | delay (ms : Nat) : Op
  | delayMicroseconds (us : Nat) : Op
  | millis (tick : Nat) : Op
  | micros (tick : Nat) : Op
  | pulseIn (clock reads : Nat → Nat) (pin state timeout fuel : Nat) : Op
  | spiBegin (spiOpenResult : Int) : Op
  | spiBeginTransaction : Op
  | spiTransfer (len : Nat) : Op
  | spiEndTransaction : Op
  | spiEnd : Op

/-- State reached after one operation. -/
def Op.apply (o : Op) (h : PiHal) : PiHal :=
  match o with
  | .init r => (h.init r).1
  | .term => (h.term).1
  | .pinMode p m => (h.pinMode p m).1
  | .digitalWrite p v => (h.digitalWrite p v).1
  | .digitalRead g p => (h.digitalRead g p).2.1
  | .attachInterrupt p cb m => (h.attachInterrupt p cb m).1
  | .detachInterrupt p => (h.detachInterrupt p).1
  | .delay ms => (h.delay ms).1
  | .delayMicroseconds us => (h.delayMicroseconds us).1
  | .millis t => (h.millis t).2.1
  | .micros t => (h.micros t).2.1
  | .pulseIn c r p s t f => (h.pulseIn c r p s t f).2.1
  | .spiBegin r => (h.spiBegin r).1
  | .spiBeginTransaction => (h.spiBeginTransaction).1
  | .spiTransfer len => (h.spiTransfer len).1
  | .spiEndTransaction => (h.spiEndTransaction).1
  | .spiEnd => (h.spiEnd).1

/-- State reached after a sequence of operations. -/
def runOps (ops : List Op) (h : PiHal) : PiHal :=
  ops.foldl (fun s o => o.apply s) h

/-- Whether an operation is an attachInterrupt on the given pin. -/
def Op.isAttachAt (p : Nat) : Op → Bool
  | .attachInterrupt q _ _ => q = p
  | _ => false

/-- A sample adapter state: channel 0, default speed, cleared arrays,
no SPI session - the state a fresh PiHal(0) would have if C++ zeroed the
member arrays. -/
def hal0 : PiHal :=
  PiHal.construct 0 2000000 (fun _ => false) (fun _ => 0) (fun _ => none)

/-- A sample state with an interrupt registered on pin 5 (mode 1,
callback 7). -/
def halAttached : PiHal := (hal0.attachInterrupt 5 (some 7) 1).1

/-- C1: pigpioAlertHandler invokes a callback exactly when the event is at
most PI_MAX_USER_GPIO, the userdata pointer is non-null, the enabled flag
of the event pin is set, the registered mode equals the observed level,
and the stored callback is non-null; and the callback it then invokes is
the stored one. -/
theorem alert_handler_dispatch_iff :
    ∀ (event : Int) (level tick : Nat) (hal : PiHal),
      ((pigpioAlertHandler event level tick (some hal)).invoked.isSome ↔
        (event ≤ ( PI_MAX_USER_GPIO : Int) ∧ hal.interruptEnabled event = true ∧
         hal.interruptModes event = level ∧ (hal.interruptCallbacks event).isSome)) ∧
      ((pigpioAlertHandler event level tick (some hal)).invoked.isSome →
        (pigpioAlertHandler event level tick (some hal)).invoked =
          hal.interruptCallbacks event) ∧
      (pigpioAlertHandler event level tick none).invoked = none := by
  intro event level tick hal
  by_cases hgt : event > ( PI_MAX_USER_GPIO : Int)
  · simp [pigpioAlertHandler, hgt, not_le.mpr hgt]
  · by_cases hen : hal.interruptEnabled event
    · by_cases hmd : hal.interruptModes event = level
      · cases hcb : hal.interruptCallbacks event with
        | some cb => simp [pigpioAlertHandler, hgt, hen, hmd, hcb, not_lt.mp hgt]
        | none => simp [pigpioAlertHandler, hgt, hen, hmd, hcb]
      · simp [pigpioAlertHandler, hgt, hen, hmd]
    · simp [pigpioAlertHandler, hgt, hen]

/-- Witness for C1 at event 5, level 1, on a state with pin 5 registered. -/
theorem alert_handler_dispatch_iff_witness :
    (pigpioAlertHandler 5 1 0 (some halAttached)).invoked =
      halAttached.interruptCallbacks 5 :=
  (alert_handler_dispatch_iff 5 1 0 halAttached).2.1 (by decide)

/-- C3: on the sentinel pin RADIOLIB_NC every GPIO-related method returns
at once: no library call, no state change, digitalRead reports 0 and
pulseIn reports 0. -/
theorem nc_sentinel_noop :
    ∀ (h : PiHal) (mode value state timeout fuel : Nat) (cb : Option Nat)
      (gpioLevel clock reads : Nat → Nat),
      h.pinMode RADIOLIB_NC mode = (h, Effects.empty) ∧
      h.digitalWrite RADIOLIB_NC value = (h, Effects.empty) ∧
      h.digitalRead gpioLevel RADIOLIB_NC = (0, h, Effects.empty) ∧
      h.attachInterrupt RADIOLIB_NC cb mode = (h, Effects.empty) ∧
      h.detachInterrupt RADIOLIB_NC = (h, Effects.empty) ∧
      h.pulseIn clock reads RADIOLIB_NC state timeout fuel = (some 0, h, []) := by
  intro h mode value state timeout fuel cb gpioLevel clock reads
  refine ⟨?_, ?_, ?_, ?_, ?_, ?_⟩ <;>
    simp [PiHal.pinMode, PiHal.digitalWrite, PiHal.digitalRead,
      PiHal.attachInterrupt, PiHal.detachInterrupt, PiHal.pulseIn]

/-- C2 counterexample: pin 32 is above PI_MAX_USER_GPIO yet pinMode
forwards it to the GPIO library instead of silently ignoring the call. -/
theorem gpio_out_of_range_counterexample :
    32 > PI_MAX_USER_GPIO ∧
    (hal0.pinMode 32 PI_OUTPUT).2.calls = [LibCall.gpioSetMode 32 PI_OUTPUT] := by
  exact ⟨by decide, by decide⟩

/-- C2 amended: only attachInterrupt and detachInterrupt silently ignore
pins above PI_MAX_USER_GPIO; pinMode, digitalWrite and digitalRead ignore
only the RADIOLIB_NC sentinel and forward every other pin, including
out-of-range ones, to the GPIO library. -/
theorem gpio_out_of_range_amended :
    ∀ (h : PiHal) (p mode value : Nat) (cb : Option Nat) (gpioLevel : Nat → Nat),
      p > PI_MAX_USER_GPIO →
      (h.attachInterrupt p cb mode = (h, Effects.empty) ∧
       h.detachInterrupt p = (h, Effects.empty)) ∧
      (p ≠ RADIOLIB_NC →
        h.pinMode p mode = (h, ⟨[LibCall.gpioSetMode p mode], []⟩) ∧
        h.digitalWrite p value = (h, ⟨[LibCall.gpioWrite p value], []⟩) ∧
        h.digitalRead gpioLevel p = (gpioLevel p, h, ⟨[LibCall.gpioRead p], []⟩)) := by
  intro h p mode value cb gpioLevel hp
  constructor
  · constructor
    · unfold PiHal.attachInterrupt
      rw [if_pos (Or.inr hp)]
    · unfold PiHal.detachInterrupt
      rw [if_pos (Or.inr hp)]
  · intro hnc
    refine ⟨?_, ?_, ?_⟩ <;>
      simp [PiHal.pinMode, PiHal.digitalWrite, PiHal.digitalRead, hnc]

/-- Witness for C2 amended at pin 32. -/
theorem gpio_out_of_range_amended_witness :
    hal0.attachInterrupt 32 (some 1) 0 = (hal0, Effects.empty) ∧
    hal0.pinMode 32 1 = (hal0, ⟨[LibCall.gpioSetMode 32 1], []⟩) := by
  have h := gpio_out_of_range_amended hal0 32 1 0 (some 1) (fun _ => 0) (by decide)
  exact ⟨h.1.1, (h.2 (by decide)).1⟩

/-- C4 counterexample: the alert handler's guard only checks the upper
bound, so the negative event -1 reaches the array reads and the access
happens at index -1, outside 0 .. PI_MAX_USER_GPIO. -/
theorem interrupt_array_index_counterexample :
    ¬ ∀ i ∈ (pigpioAlertHandler (-1) 0 0 (some hal0)).idx,
        0 ≤ i ∧ i ≤ ( PI_MAX_USER_GPIO : Int) := by
  decide

/-- C4 amended: attachInterrupt and detachInterrupt keep every
interrupt-array index within 0 .. PI_MAX_USER_GPIO for every argument; the
alert handler keeps indices within the bounds only for nonnegative event
arguments, since its guard does not reject negative events. -/
theorem interrupt_array_index_bounds :
    (∀ (h : PiHal) (n mode : Nat) (cb : Option Nat),
      ∀ i ∈ (h.attachInterrupt n cb mode).2.idx,
        0 ≤ i ∧ i ≤ ( PI_MAX_USER_GPIO : Int)) ∧
    (∀ (h : PiHal) (n : Nat),
      ∀ i ∈ (h.detachInterrupt n).2.idx,
        0 ≤ i ∧ i ≤ ( PI_MAX_USER_GPIO : Int)) ∧
    (∀ (event : Int) (level tick : Nat) (ud : Option PiHal), 0 ≤ event →
      ∀ i ∈ (pigpioAlertHandler event level tick ud).idx,
        0 ≤ i ∧ i ≤ ( PI_MAX_USER_GPIO : Int)) := by
  refine ⟨?_, ?_, ?_⟩
  · intro h n mode cb i hi
    unfold PiHal.attachInterrupt at hi
    split at hi
    · simp [Effects.empty] at hi
    · rename_i hguard
      push_neg at hguard
      simp only [List.mem_cons, List.not_mem_nil, or_false] at hi
      have hn : n ≤ PI_MAX_USER_GPIO := hguard.2
      rcases hi with rfl | rfl | rfl <;>
        exact ⟨Int.ofNat_nonneg n, by exact_mod_cast hn⟩
  · intro h n i hi
    unfold PiHal.detachInterrupt at hi
    split at hi
    · simp [Effects.empty] at hi
    · rename_i hguard
      push_neg at hguard
      simp only [List.mem_cons, List.not_mem_nil, or_false] at hi
      have hn : n ≤ PI_MAX_USER_GPIO := hguard.2
      rcases hi with rfl | rfl | rfl <;>
        exact ⟨Int.ofNat_nonneg n, by exact_mod_cast hn⟩
  · intro event level tick ud hev i hi
    cases ud with
    | none => simp [pigpioAlertHandler] at hi
    | some hal =>
      simp only [pigpioAlertHandler] at hi
      by_cases hgt : event > ( PI_MAX_USER_GPIO : Int)
      · simp [hgt] at hi
      · have hle : event ≤ ( PI_MAX_USER_GPIO : Int) := not_lt.mp hgt
        rw [if_neg hgt] at hi
        by_cases hen : hal.interruptEnabled event
        · rw [if_pos hen] at hi
          by_cases hmd : hal.interruptModes event = level
          · rw [if_pos hmd] at hi
            cases hcb : hal.interruptCallbacks event with
            | some cb =>
              rw [hcb] at hi
              simp at hi
              subst hi
              exact ⟨hev, hle⟩
            | none =>
              rw [hcb] at hi
              simp at hi
              subst hi
              exact ⟨hev, hle⟩
          · rw [if_neg hmd] at hi
            simp at hi
            subst hi
            exact ⟨hev, hle⟩
        · rw [if_neg hen] at hi
          simp at hi
          subst hi
          exact ⟨hev, hle⟩

/-- Witness for C4 amended: the handler run at the nonnegative event 5 on
a registered state accesses index 5, which is within bounds. -/
theorem interrupt_array_index_bounds_witness :
    (0 : Int) ≤ 5 ∧ (5 : Int) ≤ ( PI_MAX_USER_GPIO : Int) :=
  interrupt_array_index_bounds.2.2 5 1 0 (some halAttached) (by decide) 5 (by decide)

/-- C5: for a valid pin, attachInterrupt sets the enabled flag, stores the
mode and the callback at that pin, detachInterrupt resets all three, and
both leave every other index of the three arrays and the three SPI fields
unchanged. -/
theorem attach_detach_arrays :
    ∀ (h : PiHal) (p mode : Nat) (cb : Option Nat),
      p ≠ RADIOLIB_NC → p ≤ PI_MAX_USER_GPIO →
      ((h.attachInterrupt p cb mode).1.interruptEnabled p = true ∧
       (h.attachInterrupt p cb mode).1.interruptModes p = mode ∧
       (h.attachInterrupt p cb mode).1.interruptCallbacks p = cb ∧
       (∀ q : Int, q ≠ (p : Int) →
          (h.attachInterrupt p cb mode).1.interruptEnabled q = h.interruptEnabled q ∧
          (h.attachInterrupt p cb mode).1.interruptModes q = h.interruptModes q ∧
          (h.attachInterrupt p cb mode).1.interruptCallbacks q = h.interruptCallbacks q) ∧
       (h.attachInterrupt p cb mode).1._spiChannel = h._spiChannel ∧
       (h.attachInterrupt p cb mode).1._spiSpeed = h._spiSpeed ∧
       (h.attachInterrupt p cb mode).1._spiHandle = h._spiHandle) ∧
      ((h.detachInterrupt p).1.interruptEnabled p = false ∧
       (h.detachInterrupt p).1.interruptModes p = 0 ∧
       (h.detachInterrupt p).1.interruptCallbacks p = none ∧
       (∀ q : Int, q ≠ (p : Int) →
          (h.detachInterrupt p).1.interruptEnabled q = h.interruptEnabled q ∧
          (h.detachInterrupt p).1.interruptModes q = h.interruptModes q ∧
          (h.detachInterrupt p).1.interruptCallbacks q = h.interruptCallbacks q) ∧
       (h.detachInterrupt p).1._spiChannel = h._spiChannel ∧
       (h.detachInterrupt p).1._spiSpeed = h._spiSpeed ∧
       (h.detachInterrupt p).1._spiHandle = h._spiHandle) := by
  intro h p mode cb hnc hle
  have hguard : ¬(p = RADIOLIB_NC ∨ p > PI_MAX_USER_GPIO) := by
    push_neg
    exact ⟨hnc, hle⟩
  constructor
  · unfold PiHal.attachInterrupt
    rw [if_neg hguard]
    exact ⟨by simp, by simp, by simp,
      fun q hq => ⟨by simp [Function.update_noteq hq],
        by simp [Function.update_noteq hq], by simp [Function.update_noteq hq]⟩,
      rfl, rfl, rfl⟩
  · unfold PiHal.detachInterrupt
    rw [if_neg hguard]
    exact ⟨by simp, by simp, by simp,
      fun q hq => ⟨by simp [Function.update_noteq hq],
        by simp [Function.update_noteq hq], by simp [Function.update_noteq hq]⟩,
      rfl, rfl, rfl⟩

/-- Witness for C5 at pin 5 with callback 7 and mode 1 on a cleared
state, sampling the flag at 5, the frame at index 9, and the detach
result. -/
theorem attach_detach_arrays_witness :
    (hal0.attachInterrupt 5 (some 7) 1).1.interruptEnabled 5 = true ∧
    (hal0.attachInterrupt 5 (some 7) 1).1.interruptCallbacks 9 =
      hal0.interruptCallbacks 9 ∧
    (hal0.detachInterrupt 5).1.interruptEnabled 5 = false ∧
    (hal0.detachInterrupt 5).1._spiHandle = hal0._spiHandle := by
  have h := attach_detach_arrays hal0 5 1 (some 7) (by decide) (by decide)
  exact ⟨h.1.1, (h.1.2.2.2.1 9 (by decide)).2.2, h.2.1, h.2.2.2.2.2.2.2⟩

/-- C6: _spiChannel and _spiSpeed never change after construction: every
operation preserves them; _spiHandle is preserved by every operation other
than spiBegin and spiEnd, and init and term change it exactly as the
spiBegin and spiEnd calls they make. -/
theorem spi_scalars_fixed :
    ∀ (h : PiHal),
      (∀ p m, (h.pinMode p m).1 = h) ∧
      (∀ p v, (h.digitalWrite p v).1 = h) ∧
      (∀ g p, (h.digitalRead g p).2.1 = h) ∧
      (∀ ms, (h.delay ms).1 = h) ∧
      (∀ us, (h.delayMicroseconds us).1 = h) ∧
      (∀ t, (h.millis t).2.1 = h) ∧
      (∀ t, (h.micros t).2.1 = h) ∧
      (∀ c r p s t f, (h.pulseIn c r p s t f).2.1 = h) ∧
      (h.spiBeginTransaction.1 = h) ∧
      (∀ len, (h.spiTransfer len).1 = h) ∧
      (h.spiEndTransaction.1 = h) ∧
      (∀ n cb m, (h.attachInterrupt n cb m).1._spiChannel = h._spiChannel ∧
                 (h.attachInterrupt n cb m).1._spiSpeed = h._spiSpeed ∧
                 (h.attachInterrupt n cb m).1._spiHandle = h._spiHandle) ∧
      (∀ n, (h.detachInterrupt n).1._spiChannel = h._spiChannel ∧
            (h.detachInterrupt n).1._spiSpeed = h._spiSpeed ∧
            (h.detachInterrupt n).1._spiHandle = h._spiHandle) ∧
      (∀ r, (h.spiBegin r).1._spiChannel = h._spiChannel ∧
            (h.spiBegin r).1._spiSpeed = h._spiSpeed) ∧
      (h.spiEnd.1._spiChannel = h._spiChannel ∧
       h.spiEnd.1._spiSpeed = h._spiSpeed) ∧
      (∀ r, (h.init r).1._spiChannel = h._spiChannel ∧
            (h.init r).1._spiSpeed = h._spiSpeed ∧
            (h.init r).1._spiHandle = (h.spiBegin r).1._spiHandle) ∧
      (h.term.1._spiChannel = h._spiChannel ∧
       h.term.1._spiSpeed = h._spiSpeed ∧
       h.term.1._spiHandle = h.spiEnd.1._spiHandle) := by
  intro h
  refine ⟨fun p m => ?_, fun p v => ?_, fun g p => ?_, fun ms => rfl, fun us => rfl,
    fun t => rfl, fun t => rfl, fun c r p s t f => ?_, rfl, fun len => rfl, rfl,
    fun n cb m => ?_, fun n => ?_, fun r => ?_, ?_, fun r => ?_, ?_⟩
  · unfold PiHal.pinMode
    split <;> rfl
  · unfold PiHal.digitalWrite
    split <;> rfl
  · unfold PiHal.digitalRead
    split <;> rfl
  · unfold PiHal.pulseIn
    split <;> rfl
  · unfold PiHal.attachInterrupt
    split <;> exact ⟨rfl, rfl, rfl⟩
  · unfold PiHal.detachInterrupt
    split <;> exact ⟨rfl, rfl, rfl⟩
  · unfold PiHal.spiBegin
    split <;> exact ⟨rfl, rfl⟩
  · unfold PiHal.spiEnd
    split <;> exact ⟨rfl, rfl⟩
  · refine ⟨?_, ?_, rfl⟩
    · show (h.spiBegin r).1._spiChannel = h._spiChannel
      unfold PiHal.spiBegin
      split <;> rfl
    · show (h.spiBegin r).1._spiSpeed = h._spiSpeed
      unfold PiHal.spiBegin
      split <;> rfl
  · refine ⟨?_, ?_, rfl⟩
    · show h.spiEnd.1._spiChannel = h._spiChannel
      unfold PiHal.spiEnd
      split <;> rfl
    · show h.spiEnd.1._spiSpeed = h._spiSpeed
      unfold PiHal.spiEnd
      split <;> rfl

/-- Helper: an operation that is not an attachInterrupt on pin p never
turns the enabled flag of p back on. -/
theorem apply_preserves_disabled (p : Nat) (o : Op) (h : PiHal)
    (hno : Op.isAttachAt p o = false)
    (hdis : h.interruptEnabled (p : Int) = false) :
    (o.apply h).interruptEnabled (p : Int) = false := by
  cases o with
  | attachInterrupt q cb m =>
    have hqp : (p : Int) ≠ (q : Int) := by
      have hq : q ≠ p := by simpa [Op.isAttachAt] using hno
      exact_mod_cast Ne.symm hq
    simp only [Op.apply]
    unfold PiHal.attachInterrupt
    split
    · exact hdis
    · simpa [Function.update_noteq hqp] using hdis
  | detachInterrupt q =>
    simp only [Op.apply]
    unfold PiHal.detachInterrupt
    split
    · exact hdis
    · by_cases hqp : (p : Int) = (q : Int)
      · rw [hqp]
        exact Function.update_same _ _ _
      · simpa [Function.update_noteq hqp] using hdis
  | init r =>
    have he : (Op.init r).apply h = (h.spiBegin r).1 := rfl
    rw [he]
    unfold PiHal.spiBegin
    split <;> exact hdis
  | term =>
    have he : Op.term.apply h = h.spiEnd.1 := rfl
    rw [he]
    unfold PiHal.spiEnd
    split <;> exact hdis
  | pinMode q m =>
    simp only [Op.apply]
    unfold PiHal.pinMode
    split <;> exact hdis
  | digitalWrite q v =>
    simp only [Op.apply]
    unfold PiHal.digitalWrite
    split <;> exact hdis
  | digitalRead g q =>
    simp only [Op.apply]
    unfold PiHal.digitalRead
    split <;> exact hdis
  | pulseIn c r q s t f =>
    simp only [Op.apply]
    unfold PiHal.pulseIn
    split <;> exact hdis
  | spiBegin r =>
    simp only [Op.apply]
    unfold PiHal.spiBegin
    split <;> exact hdis
  | spiEnd =>
    simp only [Op.apply]
    unfold PiHal.spiEnd
    split <;> exact hdis
  | delay ms => exact hdis
  | delayMicroseconds us => exact hdis
  | millis t => exact hdis
  | micros t => exact hdis
  | spiBeginTransaction => exact hdis
  | spiTransfer len => exact hdis
  | spiEndTransaction => exact hdis

/-- Helper: a sequence of operations with no attachInterrupt on pin p
keeps the enabled flag of p off. -/
theorem runOps_preserves_disabled (p : Nat) :
    ∀ (ops : List Op) (h : PiHal),
      (∀ o ∈ ops, Op.isAttachAt p o = false) →
      h.interruptEnabled (p : Int) = false →
      (runOps ops h).interruptEnabled (p : Int) = false := by
  intro ops
  induction ops with
  | nil =>
    intro h _ hdis
    exact hdis
  | cons o rest ih =>
    intro h hall hdis
    have h1 : runOps (o :: rest) h = runOps rest (o.apply h) := rfl
    rw [h1]
    exact ih (o.apply h) (fun o2 ho2 => hall o2 (List.mem_cons_of_mem _ ho2))
      (apply_preserves_disabled p o h (hall o (List.mem_cons_self _ _)) hdis)

/-- C7: after detachInterrupt on a valid pin, running any sequence of
adapter operations that contains no attachInterrupt on that pin, the alert
handler invoked with that pin as event never calls a callback, whatever
the observed level. -/
theorem detach_silences_pin :
    ∀ (h : PiHal) (p : Nat) (ops : List Op) (level tick : Nat),
      p ≠ RADIOLIB_NC → p ≤ PI_MAX_USER_GPIO →
      (∀ o ∈ ops, Op.isAttachAt p o = false) →
      (pigpioAlertHandler (p : Int) level tick
        (some (runOps ops (h.detachInterrupt p).1))).invoked = none := by
  intro h p ops level tick hnc hle hall
  have hguard : ¬(p = RADIOLIB_NC ∨ p > PI_MAX_USER_GPIO) := by
    push_neg
    exact ⟨hnc, hle⟩
  have hdis0 : (h.detachInterrupt p).1.interruptEnabled (p : Int) = false := by
    unfold PiHal.detachInterrupt
    rw [if_neg hguard]
    simp
  have hdis := runOps_preserves_disabled p ops (h.detachInterrupt p).1 hall hdis0
  by_cases hgt : ((p : Int) > ( PI_MAX_USER_GPIO : Int))
  · simp [pigpioAlertHandler, hgt]
  · simp [pigpioAlertHandler, hgt, hdis]

/-- Witness for C7: detach pin 5 from a state where it was registered,
run a pinMode and an attachInterrupt on pin 7; an event on pin 5 invokes
nothing. -/
theorem detach_silences_pin_witness :
    (pigpioAlertHandler ((5 : Nat) : Int) 1 0
      (some (runOps [Op.pinMode 3 1, Op.attachInterrupt 7 (some 2) 0]
        ((halAttached.detachInterrupt 5).1)))).invoked = none :=
  detach_silences_pin halAttached 5 [Op.pinMode 3 1, Op.attachInterrupt 7 (some 2) 0]
    1 0 (by decide) (by decide) (by decide)

/-- C8 counterexample: from the fresh state, spiBegin with a failing
spiOpen result -2 records -2 as the handle; the following spiEnd then does
nothing, so after that spiEnd the handle is -2, not -1. -/
theorem spi_end_handle_counterexample :
    ((hal0.spiBegin (-2)).1.spiEnd).1._spiHandle = -2 ∧ ¬((-2 : Int) = -1) :=
  ⟨by decide, by decide⟩

/-- C8 amended: spiBegin is a no-op when a session is open; spiEnd is a
no-op when the handle is negative; after spiEnd the handle is always
negative, and it is -1 whenever a session was open before the call or the
handle already was -1 (after a failed spiOpen it keeps the error code);
repeating spiBegin with the same spiOpen outcome, or repeating spiEnd,
leaves the state unchanged. -/
theorem spi_begin_end_idempotent :
    (∀ (h : PiHal) (r : Int), h._spiHandle ≥ 0 → h.spiBegin r = (h, Effects.empty)) ∧
    (∀ (h : PiHal), h._spiHandle < 0 → h.spiEnd = (h, Effects.empty)) ∧
    (∀ (h : PiHal), h.spiEnd.1._spiHandle < 0) ∧
    (∀ (h : PiHal), h._spiHandle ≥ 0 → h.spiEnd.1._spiHandle = -1) ∧
    (∀ (h : PiHal), h._spiHandle = -1 → h.spiEnd.1._spiHandle = -1) ∧
    (∀ (h : PiHal) (r : Int), ((h.spiBegin r).1.spiBegin r).1 = (h.spiBegin r).1) ∧
    (∀ (h : PiHal), (h.spiEnd.1.spiEnd).1 = h.spiEnd.1) := by
  refine ⟨?_, ?_, ?_, ?_, ?_, ?_, ?_⟩
  · intro h r hge
    unfold PiHal.spiBegin
    rw [if_neg (not_lt.mpr hge)]
  · intro h hlt
    unfold PiHal.spiEnd
    rw [if_neg (not_le.mpr hlt)]
  · intro h
    unfold PiHal.spiEnd
    split
    · norm_num
    · rename_i hx
      exact not_le.mp hx
  · intro h hge
    unfold PiHal.spiEnd
    rw [if_pos hge]
  · intro h he
    unfold PiHal.spiEnd
    rw [if_neg (by rw [he]; decide)]
    exact he
  · intro h r
    by_cases h1 : h._spiHandle < 0
    · by_cases h2 : r < 0 <;> simp [PiHal.spiBegin, h1, h2]
    · simp [PiHal.spiBegin, h1]
  · intro h
    by_cases h1 : h._spiHandle ≥ 0 <;> norm_num [PiHal.spiEnd, h1]

/-- Witness for C8 amended: with a session open at handle 3, a second
spiBegin is a no-op; on the fresh state (handle -1), spiEnd is a no-op. -/
theorem spi_begin_end_idempotent_witness :
    (hal0.spiBegin 3).1.spiBegin 7 = ((hal0.spiBegin 3).1, Effects.empty) ∧
    hal0.spiEnd = (hal0, Effects.empty) :=
  ⟨spi_begin_end_idempotent.1 (hal0.spiBegin 3).1 7 (by decide),
   spi_begin_end_idempotent.2.1 hal0 (by decide)⟩

/-- Helper: if the pin holds the watched state for n iterations without
tripping the timeout and the n-th read differs, the loop returns the
uint32 difference between the tick taken right after that read and start. -/
theorem pulseInLoop_exit (clock reads : Nat → Nat)
    (pin state timeout curtick start : Nat) :
    ∀ (n fuel i : Nat), n < fuel →
      (∀ k, k < n → reads (i + k) = state ∧
        sub32 (clock (i + k + 2)) curtick ≤ timeout) →
      reads (i + n) ≠ state →
      (pulseInLoop clock reads pin state timeout curtick start fuel i).1 =
        some (sub32 (clock (i + n + 2)) start) := by
  intro n
  induction n with
  | zero =>
    intro fuel i hf hall hr
    obtain ⟨fuel, rfl⟩ : ∃ m, fuel = m + 1 := ⟨fuel - 1, by omega⟩
    rw [Nat.add_zero] at hr ⊢
    simp only [pulseInLoop]
    rw [if_neg hr]
  | succ n ih =>
    intro fuel i hf hall hr
    obtain ⟨fuel, rfl⟩ : ∃ m, fuel = m + 1 := ⟨fuel - 1, by omega⟩
    have h0 := hall 0 (Nat.succ_pos n)
    rw [Nat.add_zero] at h0
    simp only [pulseInLoop]
    rw [if_pos h0.1, if_neg (not_lt.mpr h0.2)]
    have hrec := ih fuel (i + 1) (by omega)
      (fun k hk => by
        have hk1 := hall (k + 1) (by omega)
        constructor
        · rw [show i + 1 + k = i + (k + 1) from by omega]
          exact hk1.1
        · rw [show i + 1 + k + 2 = i + (k + 1) + 2 from by omega]
          exact hk1.2)
      (by
        rw [show i + 1 + n = i + (n + 1) from by omega]
        exact hr)
    show (pulseInLoop clock reads pin state timeout curtick start fuel (i + 1)).1 =
      some (sub32 (clock (i + (n + 1) + 2)) start)
    rw [show i + (n + 1) + 2 = i + 1 + n + 2 from by omega]
    exact hrec

/-- Helper: if the pin holds the watched state through iteration n and the
tick of iteration n exceeds curtick by more than timeout, the loop
returns 0. -/
theorem pulseInLoop_timeout (clock reads : Nat → Nat)
    (pin state timeout curtick start : Nat) :
    ∀ (n fuel i : Nat), n < fuel →
      (∀ k, k < n → reads (i + k) = state ∧
        sub32 (clock (i + k + 2)) curtick ≤ timeout) →
      reads (i + n) = state →
      timeout < sub32 (clock (i + n + 2)) curtick →
      (pulseInLoop clock reads pin state timeout curtick start fuel i).1 =
        some 0 := by
  intro n
  induction n with
  | zero =>
    intro fuel i hf hall hr ht
    obtain ⟨fuel, rfl⟩ : ∃ m, fuel = m + 1 := ⟨fuel - 1, by omega⟩
    rw [Nat.add_zero] at hr ht
    simp only [pulseInLoop]
    rw [if_pos hr, if_pos ht]
  | succ n ih =>
    intro fuel i hf hall hr ht
    obtain ⟨fuel, rfl⟩ : ∃ m, fuel = m + 1 := ⟨fuel - 1, by omega⟩
    have h0 := hall 0 (Nat.succ_pos n)
    rw [Nat.add_zero] at h0
    simp only [pulseInLoop]
    rw [if_pos h0.1, if_neg (not_lt.mpr h0.2)]
    have hrec := ih fuel (i + 1) (by omega)
      (fun k hk => by
        have hk1 := hall (k + 1) (by omega)
        constructor
        · rw [show i + 1 + k = i + (k + 1) from by omega]
          exact hk1.1
        · rw [show i + 1 + k + 2 = i + (k + 1) + 2 from by omega]
          exact hk1.2)
      (by
        rw [show i + 1 + n = i + (n + 1) from by omega]
        exact hr)
      (by
        rw [show i + 1 + n + 2 = i + (n + 1) + 2 from by omega]
        exact ht)
    show (pulseInLoop clock reads pin state timeout curtick start fuel (i + 1)).1 =
      some 0
    exact hrec

/-- C9: pulseIn returns 0 on the sentinel pin (with no library call); for
a connected pin it first sets the pin to input mode, and then: if the i-th
read is the first that differs from the watched state (no earlier timeout
firing), it returns the uint32 difference between the tick taken right
after that read and the entry tick clock 0 - it measures from the call,
not from a pulse start; if instead the pin still holds the watched state
when a tick exceeds curtick (the second entry tick, clock 1) by more than
timeout, it returns 0. -/
theorem pulseIn_spec :
    (∀ (h : PiHal) (clock reads : Nat → Nat) (state timeout fuel : Nat),
      h.pulseIn clock reads RADIOLIB_NC state timeout fuel = (some 0, h, [])) ∧
    (∀ (h : PiHal) (clock reads : Nat → Nat) (pin state timeout fuel i : Nat),
      pin ≠ RADIOLIB_NC → i < fuel →
      (∀ k, k < i → reads k = state ∧ sub32 (clock (k + 2)) (clock 1) ≤ timeout) →
      reads i ≠ state →
      (h.pulseIn clock reads pin state timeout fuel).1 =
        some (sub32 (clock (i + 2)) (clock 0))) ∧
    (∀ (h : PiHal) (clock reads : Nat → Nat) (pin state timeout fuel i : Nat),
      pin ≠ RADIOLIB_NC → i < fuel →
      (∀ k, k < i → reads k = state ∧ sub32 (clock (k + 2)) (clock 1) ≤ timeout) →
      reads i = state → timeout < sub32 (clock (i + 2)) (clock 1) →
      (h.pulseIn clock reads pin state timeout fuel).1 = some 0) ∧
    (∀ (h : PiHal) (clock reads : Nat → Nat) (pin state timeout fuel : Nat),
      pin ≠ RADIOLIB_NC →
      ∃ rest, (h.pulseIn clock reads pin state timeout fuel).2.2 =
        LibCall.gpioSetMode pin PI_INPUT :: rest) := by
  refine ⟨?_, ?_, ?_, ?_⟩
  · intro h clock reads state timeout fuel
    unfold PiHal.pulseIn
    rw [if_pos rfl]
  · intro h clock reads pin state timeout fuel i hnc hf hall hr
    unfold PiHal.pulseIn
    rw [if_neg hnc]
    show (pulseInLoop clock reads pin state timeout (clock 1) (clock 0) fuel 0).1 =
      some (sub32 (clock (i + 2)) (clock 0))
    have hx := pulseInLoop_exit clock reads pin state timeout (clock 1) (clock 0)
      i fuel 0 hf (fun k hk => by simpa using hall k hk) (by simpa using hr)
    simpa using hx
  · intro h clock reads pin state timeout fuel i hnc hf hall hr ht
    unfold PiHal.pulseIn
    rw [if_neg hnc]
    show (pulseInLoop clock reads pin state timeout (clock 1) (clock 0) fuel 0).1 =
      some 0
    have hx := pulseInLoop_timeout clock reads pin state timeout (clock 1) (clock 0)
      i fuel 0 hf (fun k hk => by simpa using hall k hk) (by simpa using hr)
      (by simpa using ht)
    exact hx
  · intro h clock reads pin state timeout fuel hnc
    unfold PiHal.pulseIn
    rw [if_neg hnc]
    exact ⟨LibCall.gpioTick :: LibCall.gpioTick ::
      (pulseInLoop clock reads pin state timeout (clock 1) (clock 0) fuel 0).2, rfl⟩

/-- Witness for C9: pin 4, watched state 1, the pin reads 1 three times
and 0 at the fourth read, the tick advancing 10 microseconds per call;
pulseIn reports the tick right after the differing read minus the entry
tick. -/
theorem pulseIn_spec_witness :
    (hal0.pulseIn (fun k => 10 * k) (fun j => if j < 3 then 1 else 0)
      4 1 1000 10).1 = some 50 := by
  have hx := pulseIn_spec.2.1 hal0 (fun k => 10 * k)
    (fun j => if j < 3 then 1 else 0) 4 1 1000 10 3
    (by decide) (by decide) (by decide) (by decide)
  simpa [sub32, UINT32_MOD] using hx
